import Mathlib

/-!
Verification of the color module of way-cooler (`src/render/color.rs`).

Strings are modelled as lists of Unicode scalar values (Lean `Char` coincides
with Rust `char`).  Rust `str` operations that work on UTF-8 byte indices
(`str::len`, `str::split_at`) are modelled through the UTF-8 byte size of each
character; `str::split_at` panics when the index is not a character boundary,
so the functions that may reach such a split return a result type with an
explicit panic outcome.
-/

namespace WayCooler

/-- Outcome of a Rust computation that may panic: either a panic or a value. -/
inductive RResult (α : Type) where
  | panic : RResult α
  | ok : α → RResult α
deriving DecidableEq

/-- The `Color` struct of `color.rs`: four `u8` channels (here naturals that
are below 256 whenever they come from actual `u8` values). -/
structure Color where
  red : Nat
  green : Nat
  blue : Nat
  alpha : Nat
deriving DecidableEq

/-- `Color::rgba`: stores the red argument in the `blue` field and the blue
argument in the `red` field (the workaround for the wlc red/blue bug). -/
def rgba (r g b a : Nat) : Color :=
  { red := b, green := g, blue := r, alpha := a }

/-- `Color::values`: the stored channels in the order (red, green, blue, alpha). -/
def values (c : Color) : Nat × Nat × Nat × Nat :=
  (c.red, c.green, c.blue, c.alpha)

/-- Number of bytes of the UTF-8 encoding of a character (Rust `char::len_utf8`). -/
def utf8Size (c : Char) : Nat :=
  if c.toNat ≤ 0x7F then 1
  else if c.toNat ≤ 0x7FF then 2
  else if c.toNat ≤ 0xFFFF then 3
  else 4

/-- Rust `str::len`: the length of the string in UTF-8 bytes. -/
def byteLen (s : List Char) : Nat :=
  (s.map utf8Size).sum

/-- Rust `str::split_at mid`: splits the string at byte index `mid`.
`none` models the panic that occurs when `mid` is not on a character boundary
or lies past the end of the string. -/
def splitAtBytes (n : Nat) (s : List Char) : Option (List Char × List Char) :=
  if n = 0 then some ([], s)
  else
    match s with
    | [] => none
    | c :: cs =>
        if utf8Size c ≤ n then
          (splitAtBytes (n - utf8Size c) cs).map (fun p => (c :: p.1, p.2))
        else none

/-- Rust `str::starts_with` for a pattern made of whole characters. -/
def startsWith (p s : List Char) : Bool :=
  List.isPrefixOf p s

/-- Rust `char::to_digit 16`: numeric characters 48–57 are the digits 0–9,
characters 97–102 are the lowercase hex letters valued 10–15 and characters
65–70 are the uppercase hex letters valued 10–15. -/
def char_to_digit16 (c : Char) : Option Nat :=
  if 48 ≤ c.toNat ∧ c.toNat ≤ 57 then some (c.toNat - 48)
  else if 97 ≤ c.toNat ∧ c.toNat ≤ 102 then some (c.toNat - 87)
  else if 65 ≤ c.toNat ∧ c.toNat ≤ 70 then some (c.toNat - 55)
  else none

/-- `Color::hex_to_u8`: `c.to_digit(16).map(|x| x as u8)`; the `% 256`
models the `as u8` cast (the value is at most 15, so it never truncates). -/
def hex_to_u8 (c : Char) : Option Nat :=
  (char_to_digit16 c).map (fun x => x % 256)

/-- `Color::parse_color`: takes at most the first two characters of the
string; both must decode as hex digits, combined as `(digit1 << 4) | digit2`
on `u8` (the `% 256` models the `u8` shift, which never overflows here). -/
def parse_color (s : List Char) : Option Nat :=
  match s.take 2 with
  | [] => none
  | [c1] => (hex_to_u8 c1).bind (fun _ => none)
  | c1 :: c2 :: _ =>
      (hex_to_u8 c1).bind (fun d1 =>
        (hex_to_u8 c2).map (fun d2 => ((d1 <<< 4) % 256) ||| d2))

/-- `Color::parse_rgb`: on a 6-byte string, split into three 2-byte fields
red, green, blue, decode each and construct through `rgba` with alpha 255. -/
def parse_rgb (s : List Char) : RResult (Option Color) :=
  if byteLen s = 6 then
    match splitAtBytes 2 s with
    | none => RResult.panic
    | some (s_red, s_rest) =>
      match splitAtBytes 2 s_rest with
      | none => RResult.panic
      | some (s_green, s_blue) =>
        match parse_color s_red with
        | none => RResult.ok none
        | some red =>
          match parse_color s_green with
          | none => RResult.ok none
          | some green =>
              RResult.ok ((parse_color s_blue).map (fun b => rgba red green b 255))
  else RResult.ok none

/-- `Color::parse_argb`: on an 8-byte string, split off the 2-byte alpha
field, decode it, decode the remaining 6 bytes via `parse_rgb`, and rebuild
through `rgba rgb.blue rgb.green rgb.red alpha` (the stored channels of the
intermediate color are re-swapped before the constructor swaps once more). -/
def parse_argb (s : List Char) : RResult (Option Color) :=
  if byteLen s = 8 then
    match splitAtBytes 2 s with
    | none => RResult.panic
    | some (str_a, str_rgb) =>
      match parse_color str_a with
      | none => RResult.ok none
      | some alpha =>
        match parse_rgb str_rgb with
        | RResult.panic => RResult.panic
        | RResult.ok colors =>
            RResult.ok (colors.map (fun rgb => rgba rgb.blue rgb.green rgb.red alpha))
  else RResult.ok none

/-- The length dispatch of `Color::parse` once no prefix applies: an 8-byte
string goes to `parse_argb`, a 6-byte string to `parse_rgb`, anything else
fails. -/
def parseBody (s : List Char) : RResult (Option Color) :=
  if byteLen s = 8 then parse_argb s
  else if byteLen s = 6 then parse_rgb s
  else RResult.ok none

/-- `Color::parse`: strips a leading `"#"` (one byte) or `"0x"` (two bytes)
recursively, then dispatches on the byte length of the remainder. -/
def parse : List Char → RResult (Option Color)
  | [] => parseBody []
  | [c1] => if c1 = '#' then parse [] else parseBody [c1]
  | c1 :: c2 :: rest =>
      if c1 = '#' then parse (c2 :: rest)
      else if c1 = '0' ∧ c2 = 'x' then parse rest
      else parseBody (c1 :: c2 :: rest)

/-- `impl From<u32> for Color`: mask and shift out the three byte fields of a
packed `0xRRGGBB` value; each `% 256` models an `as u8` cast. -/
def fromU32 (val : Nat) : Color :=
  rgba (((val &&& 0xff0000) >>> 16) % 256)
       (((val &&& 0x00ff00) >>> 8) % 256)
       ((val &&& 0x0000ff) % 256)
       255

/-- A valid hex body: exactly 6 or 8 characters, each a hex digit. -/
def isHexBody (s : List Char) : Prop :=
  (s.length = 6 ∨ s.length = 8) ∧ ∀ c ∈ s, (hex_to_u8 c).isSome

instance (s : List Char) : Decidable (isHexBody s) := by
  unfold isHexBody
  infer_instance

/-! ### Basic facts about hex digits -/

theorem char_to_digit16_lt {c : Char} {d : Nat} (h : char_to_digit16 c = some d) :
    d < 16 := by
  unfold char_to_digit16 at h
  split_ifs at h with h1 h2 h3
  · injection h with h; omega
  · injection h with h; omega
  · injection h with h; omega

theorem char_to_digit16_le {c : Char} {d : Nat} (h : char_to_digit16 c = some d) :
    c.toNat ≤ 102 := by
  unfold char_to_digit16 at h
  split_ifs at h with h1 h2 h3
  · omega
  · omega
  · omega

theorem hex_to_u8_lt {c : Char} {d : Nat} (h : hex_to_u8 c = some d) : d < 16 := by
  unfold hex_to_u8 at h
  cases hc : char_to_digit16 c with
  | none => rw [hc] at h; exact Option.noConfusion h
  | some x =>
      rw [hc] at h
      simp only [Option.map_some', Option.some.injEq] at h
      have := char_to_digit16_lt hc
      omega

theorem hex_utf8Size {c : Char} {d : Nat} (h : hex_to_u8 c = some d) :
    utf8Size c = 1 := by
  unfold hex_to_u8 at h
  cases hc : char_to_digit16 c with
  | none => rw [hc] at h; exact Option.noConfusion h
  | some x =>
      have := char_to_digit16_le hc
      unfold utf8Size
      rw [if_pos (by omega)]

theorem hex_some_ne {c e : Char} {d : Nat} (h : hex_to_u8 c = some d)
    (he : hex_to_u8 e = none) : c ≠ e := by
  intro hce
  rw [hce, he] at h
  exact Option.noConfusion h

/-! ### Evaluation lemmas for the split and decode helpers -/

theorem splitAtBytes_zero (s : List Char) : splitAtBytes 0 s = some ([], s) := by
  rw [splitAtBytes.eq_def]
  norm_num

theorem splitAtBytes_two {c1 c2 : Char} {rest : List Char}
    (h1 : utf8Size c1 = 1) (h2 : utf8Size c2 = 1) :
    splitAtBytes 2 (c1 :: c2 :: rest) = some ([c1, c2], rest) := by
  simp [splitAtBytes, h1, h2, splitAtBytes_zero]

theorem parse_color_nil : parse_color [] = none := rfl

theorem parse_color_single (c : Char) : parse_color [c] = none := by
  cases hc : hex_to_u8 c <;> simp [parse_color, hc]

theorem parse_color_cons_cons {c1 c2 : Char} {rest : List Char} {d1 d2 : Nat}
    (h1 : hex_to_u8 c1 = some d1) (h2 : hex_to_u8 c2 = some d2) :
    parse_color (c1 :: c2 :: rest) = some ((d1 <<< 4) ||| d2) := by
  have hd1 := hex_to_u8_lt h1
  have hm : (d1 <<< 4) % 256 = d1 <<< 4 := by
    have he : d1 <<< 4 = d1 * 16 := by rw [Nat.shiftLeft_eq]
    rw [he]
    exact Nat.mod_eq_of_lt (by omega)
  simp [parse_color, h1, h2, hm]

theorem parse_color_fst_none {c1 : Char} {rest : List Char}
    (h : hex_to_u8 c1 = none) : parse_color (c1 :: rest) = none := by
  cases rest <;> simp [parse_color, h]

theorem parse_color_snd_none {c1 c2 : Char} {rest : List Char}
    (h : hex_to_u8 c2 = none) : parse_color (c1 :: c2 :: rest) = none := by
  cases hc : hex_to_u8 c1 <;> simp [parse_color, h, hc]

/-! ### Evaluation lemmas for the parser -/

theorem parse_hash (x : List Char) : parse ('#' :: x) = parse x := by
  cases x <;> rfl

theorem parse_0x_strip (x : List Char) : parse ('0' :: 'x' :: x) = parse x := rfl

theorem parse_single {c : Char} (h : c ≠ '#') : parse [c] = parseBody [c] := by
  unfold parse
  rw [if_neg h]

theorem parse_no_strip {c1 c2 : Char} {rest : List Char} (h1 : c1 ≠ '#')
    (h2 : ¬(c1 = '0' ∧ c2 = 'x')) :
    parse (c1 :: c2 :: rest) = parseBody (c1 :: c2 :: rest) := by
  unfold parse
  rw [if_neg h1, if_neg h2]

theorem parseBody_six {s : List Char} (hb : byteLen s = 6) :
    parseBody s = parse_rgb s := by
  unfold parseBody
  rw [hb]
  norm_num

theorem parseBody_eight {s : List Char} (hb : byteLen s = 8) :
    parseBody s = parse_argb s := by
  unfold parseBody
  rw [hb]
  norm_num

theorem parse_rgb_eval {c1 c2 c3 c4 c5 c6 : Char}
    (u1 : utf8Size c1 = 1) (u2 : utf8Size c2 = 1) (u3 : utf8Size c3 = 1)
    (u4 : utf8Size c4 = 1) (u5 : utf8Size c5 = 1) (u6 : utf8Size c6 = 1) :
    parse_rgb [c1, c2, c3, c4, c5, c6] =
      match parse_color [c1, c2] with
      | none => RResult.ok none
      | some red =>
        match parse_color [c3, c4] with
        | none => RResult.ok none
        | some green =>
            RResult.ok ((parse_color [c5, c6]).map (fun b => rgba red green b 255)) := by
  have hb : byteLen [c1, c2, c3, c4, c5, c6] = 6 := by
    simp [byteLen, u1, u2, u3, u4, u5, u6]
  unfold parse_rgb
  rw [if_pos hb]
  simp only [splitAtBytes_two u1 u2, splitAtBytes_two u3 u4]

theorem parse_argb_eval {c1 c2 c3 c4 c5 c6 c7 c8 : Char}
    (u1 : utf8Size c1 = 1) (u2 : utf8Size c2 = 1) (u3 : utf8Size c3 = 1)
    (u4 : utf8Size c4 = 1) (u5 : utf8Size c5 = 1) (u6 : utf8Size c6 = 1)
    (u7 : utf8Size c7 = 1) (u8 : utf8Size c8 = 1) :
    parse_argb [c1, c2, c3, c4, c5, c6, c7, c8] =
      match parse_color [c1, c2] with
      | none => RResult.ok none
      | some alpha =>
        match parse_rgb [c3, c4, c5, c6, c7, c8] with
        | RResult.panic => RResult.panic
        | RResult.ok colors =>
            RResult.ok (colors.map (fun rgb => rgba rgb.blue rgb.green rgb.red alpha)) := by
  have hb : byteLen [c1, c2, c3, c4, c5, c6, c7, c8] = 8 := by
    simp [byteLen, u1, u2, u3, u4, u5, u6, u7, u8]
  unfold parse_argb
  rw [if_pos hb]
  simp only [splitAtBytes_two u1 u2]

theorem parse_rgb_hex {c1 c2 c3 c4 c5 c6 : Char} {d1 d2 d3 d4 d5 d6 : Nat}
    (h1 : hex_to_u8 c1 = some d1) (h2 : hex_to_u8 c2 = some d2)
    (h3 : hex_to_u8 c3 = some d3) (h4 : hex_to_u8 c4 = some d4)
    (h5 : hex_to_u8 c5 = some d5) (h6 : hex_to_u8 c6 = some d6) :
    parse_rgb [c1, c2, c3, c4, c5, c6] =
      RResult.ok (some (rgba ((d1 <<< 4) ||| d2) ((d3 <<< 4) ||| d4)
        ((d5 <<< 4) ||| d6) 255)) := by
  rw [parse_rgb_eval (hex_utf8Size h1) (hex_utf8Size h2) (hex_utf8Size h3)
    (hex_utf8Size h4) (hex_utf8Size h5) (hex_utf8Size h6),
    parse_color_cons_cons h1 h2, parse_color_cons_cons h3 h4,
    parse_color_cons_cons h5 h6]
  rfl

theorem parse_argb_hex {c1 c2 c3 c4 c5 c6 c7 c8 : Char}
    {d1 d2 d3 d4 d5 d6 d7 d8 : Nat}
    (h1 : hex_to_u8 c1 = some d1) (h2 : hex_to_u8 c2 = some d2)
    (h3 : hex_to_u8 c3 = some d3) (h4 : hex_to_u8 c4 = some d4)
    (h5 : hex_to_u8 c5 = some d5) (h6 : hex_to_u8 c6 = some d6)
    (h7 : hex_to_u8 c7 = some d7) (h8 : hex_to_u8 c8 = some d8) :
    parse_argb [c1, c2, c3, c4, c5, c6, c7, c8] =
      RResult.ok (some (rgba ((d3 <<< 4) ||| d4) ((d5 <<< 4) ||| d6)
        ((d7 <<< 4) ||| d8) ((d1 <<< 4) ||| d2))) := by
  rw [parse_argb_eval (hex_utf8Size h1) (hex_utf8Size h2) (hex_utf8Size h3)
    (hex_utf8Size h4) (hex_utf8Size h5) (hex_utf8Size h6) (hex_utf8Size h7)
    (hex_utf8Size h8),
    parse_color_cons_cons h1 h2, parse_rgb_hex h3 h4 h5 h6 h7 h8]
  rfl

theorem parse_hex6 {c1 c2 c3 c4 c5 c6 : Char} {d1 d2 d3 d4 d5 d6 : Nat}
    (h1 : hex_to_u8 c1 = some d1) (h2 : hex_to_u8 c2 = some d2)
    (h3 : hex_to_u8 c3 = some d3) (h4 : hex_to_u8 c4 = some d4)
    (h5 : hex_to_u8 c5 = some d5) (h6 : hex_to_u8 c6 = some d6) :
    parse [c1, c2, c3, c4, c5, c6] =
      RResult.ok (some (rgba ((d1 <<< 4) ||| d2) ((d3 <<< 4) ||| d4)
        ((d5 <<< 4) ||| d6) 255)) := by
  have hne1 : c1 ≠ '#' := hex_some_ne h1 (by decide)
  have hne2 : ¬(c1 = '0' ∧ c2 = 'x') := by
    rintro ⟨-, e⟩
    exact hex_some_ne h2 (by decide) e
  have hb : byteLen [c1, c2, c3, c4, c5, c6] = 6 := by
    simp [byteLen, hex_utf8Size h1, hex_utf8Size h2, hex_utf8Size h3,
      hex_utf8Size h4, hex_utf8Size h5, hex_utf8Size h6]
  rw [parse_no_strip hne1 hne2, parseBody_six hb,
    parse_rgb_hex h1 h2 h3 h4 h5 h6]

theorem parse_hex8 {c1 c2 c3 c4 c5 c6 c7 c8 : Char}
    {d1 d2 d3 d4 d5 d6 d7 d8 : Nat}
    (h1 : hex_to_u8 c1 = some d1) (h2 : hex_to_u8 c2 = some d2)
    (h3 : hex_to_u8 c3 = some d3) (h4 : hex_to_u8 c4 = some d4)
    (h5 : hex_to_u8 c5 = some d5) (h6 : hex_to_u8 c6 = some d6)
    (h7 : hex_to_u8 c7 = some d7) (h8 : hex_to_u8 c8 = some d8) :
    parse [c1, c2, c3, c4, c5, c6, c7, c8] =
      RResult.ok (some (rgba ((d3 <<< 4) ||| d4) ((d5 <<< 4) ||| d6)
        ((d7 <<< 4) ||| d8) ((d1 <<< 4) ||| d2))) := by
  have hne1 : c1 ≠ '#' := hex_some_ne h1 (by decide)
  have hne2 : ¬(c1 = '0' ∧ c2 = 'x') := by
    rintro ⟨-, e⟩
    exact hex_some_ne h2 (by decide) e
  have hb : byteLen [c1, c2, c3, c4, c5, c6, c7, c8] = 8 := by
    simp [byteLen, hex_utf8Size h1, hex_utf8Size h2, hex_utf8Size h3,
      hex_utf8Size h4, hex_utf8Size h5, hex_utf8Size h6, hex_utf8Size h7,
      hex_utf8Size h8]
  rw [parse_no_strip hne1 hne2, parseBody_eight hb,
    parse_argb_hex h1 h2 h3 h4 h5 h6 h7 h8]

/-! ### Lists of known length -/

theorem length_succ_shape {n : Nat} {s : List Char} (h : s.length = n + 1) :
    ∃ c t, s = c :: t ∧ List.length t = n := by
  cases s with
  | nil => simp at h
  | cons a t => exact ⟨a, t, rfl, by simpa using h⟩

theorem exists_six {s : List Char} (h : s.length = 6) :
    ∃ c1 c2 c3 c4 c5 c6, s = [c1, c2, c3, c4, c5, c6] := by
  obtain ⟨c1, s, rfl, hl5⟩ := length_succ_shape (show s.length = 5 + 1 by omega)
  obtain ⟨c2, s, rfl, hl4⟩ := length_succ_shape (show s.length = 4 + 1 by omega)
  obtain ⟨c3, s, rfl, hl3⟩ := length_succ_shape (show s.length = 3 + 1 by omega)
  obtain ⟨c4, s, rfl, hl2⟩ := length_succ_shape (show s.length = 2 + 1 by omega)
  obtain ⟨c5, s, rfl, hl1⟩ := length_succ_shape (show s.length = 1 + 1 by omega)
  obtain ⟨c6, s, rfl, hl0⟩ := length_succ_shape (show s.length = 0 + 1 by omega)
  rw [List.length_eq_zero] at hl0
  subst hl0
  exact ⟨c1, c2, c3, c4, c5, c6, rfl⟩

theorem exists_eight {s : List Char} (h : s.length = 8) :
    ∃ c1 c2 c3 c4 c5 c6 c7 c8, s = [c1, c2, c3, c4, c5, c6, c7, c8] := by
  obtain ⟨c1, s, rfl, hl7⟩ := length_succ_shape (show s.length = 7 + 1 by omega)
  obtain ⟨c2, s, rfl, hl6⟩ := length_succ_shape (show s.length = 6 + 1 by omega)
  obtain ⟨c3, c4, c5, c6, c7, c8, rfl⟩ := exists_six hl6
  exact ⟨c1, c2, c3, c4, c5, c6, c7, c8, rfl⟩

theorem byteLen_eq_length {s : List Char} (h : ∀ c ∈ s, utf8Size c = 1) :
    byteLen s = s.length := by
  induction s with
  | nil => rfl
  | cons c t ih =>
      have hc := h c (List.mem_cons_self c t)
      have ih' := ih (fun x hx => h x (List.mem_cons_of_mem c hx))
      simp only [byteLen, List.map_cons, List.sum_cons, List.length_cons, hc]
      simp only [byteLen] at ih'
      omega

/-! ### Prefix tests -/

theorem startsWith_hash_false {c : Char} {rest : List Char}
    (h : startsWith ['#'] (c :: rest) = false) : c ≠ '#' := by
  intro e
  subst e
  simp [startsWith, List.isPrefixOf] at h

theorem startsWith_0x_false {c1 c2 : Char} {rest : List Char}
    (h : startsWith ['0', 'x'] (c1 :: c2 :: rest) = false) :
    ¬(c1 = '0' ∧ c2 = 'x') := by
  rintro ⟨e1, e2⟩
  subst e1
  subst e2
  simp [startsWith, List.isPrefixOf] at h

/-! ### Failure paths of the parser -/

theorem parse_badLen {s : List Char} (hp1 : startsWith ['#'] s = false)
    (hp2 : startsWith ['0', 'x'] s = false) (h6 : byteLen s ≠ 6)
    (h8 : byteLen s ≠ 8) : parse s = RResult.ok none := by
  have hbody : parseBody s = RResult.ok none := by
    unfold parseBody
    rw [if_neg h8, if_neg h6]
  cases s with
  | nil => exact hbody
  | cons c1 t =>
      cases t with
      | nil =>
          rw [parse_single (startsWith_hash_false hp1)]
          exact hbody
      | cons c2 rest =>
          rw [parse_no_strip (startsWith_hash_false hp1) (startsWith_0x_false hp2)]
          exact hbody

theorem parse_rgb_none6 {c1 c2 c3 c4 c5 c6 : Char}
    (u : ∀ c ∈ [c1, c2, c3, c4, c5, c6], utf8Size c = 1)
    (h : ∃ c ∈ [c1, c2, c3, c4, c5, c6], hex_to_u8 c = none) :
    parse_rgb [c1, c2, c3, c4, c5, c6] = RResult.ok none := by
  rw [parse_rgb_eval (u c1 (by simp)) (u c2 (by simp)) (u c3 (by simp))
    (u c4 (by simp)) (u c5 (by simp)) (u c6 (by simp))]
  obtain ⟨c, hc, hnone⟩ := h
  simp only [List.mem_cons, List.not_mem_nil, or_false] at hc
  rcases hc with rfl | rfl | rfl | rfl | rfl | rfl
  · rw [parse_color_fst_none hnone]
  · rw [parse_color_snd_none hnone]
  · cases h12 : parse_color [c1, c2] with
    | none => rfl
    | some red => rw [parse_color_fst_none hnone]
  · cases h12 : parse_color [c1, c2] with
    | none => rfl
    | some red => rw [parse_color_snd_none hnone]
  · cases h12 : parse_color [c1, c2] with
    | none => rfl
    | some red =>
        cases h34 : parse_color [c3, c4] with
        | none => rfl
        | some green =>
            rw [parse_color_fst_none hnone]
            rfl
  · cases h12 : parse_color [c1, c2] with
    | none => rfl
    | some red =>
        cases h34 : parse_color [c3, c4] with
        | none => rfl
        | some green =>
            rw [parse_color_snd_none hnone]
            rfl

theorem parse_argb_none8 {c1 c2 c3 c4 c5 c6 c7 c8 : Char}
    (u : ∀ c ∈ [c1, c2, c3, c4, c5, c6, c7, c8], utf8Size c = 1)
    (h : ∃ c ∈ [c1, c2, c3, c4, c5, c6, c7, c8], hex_to_u8 c = none) :
    parse_argb [c1, c2, c3, c4, c5, c6, c7, c8] = RResult.ok none := by
  rw [parse_argb_eval (u c1 (by simp)) (u c2 (by simp)) (u c3 (by simp))
    (u c4 (by simp)) (u c5 (by simp)) (u c6 (by simp)) (u c7 (by simp))
    (u c8 (by simp))]
  have utail : ∀ c ∈ [c3, c4, c5, c6, c7, c8], utf8Size c = 1 := by
    intro c hc
    apply u
    simp only [List.mem_cons, List.not_mem_nil, or_false] at hc ⊢
    tauto
  obtain ⟨c, hc, hnone⟩ := h
  simp only [List.mem_cons, List.not_mem_nil, or_false] at hc
  rcases hc with rfl | rfl | rfl | rfl | rfl | rfl | rfl | rfl
  · rw [parse_color_fst_none hnone]
  · rw [parse_color_snd_none hnone]
  · cases h12 : parse_color [c1, c2] with
    | none => rfl
    | some alpha =>
        rw [parse_rgb_none6 utail ⟨c, by simp, hnone⟩]
        rfl
  · cases h12 : parse_color [c1, c2] with
    | none => rfl
    | some alpha =>
        rw [parse_rgb_none6 utail ⟨c, by simp, hnone⟩]
        rfl
  · cases h12 : parse_color [c1, c2] with
    | none => rfl
    | some alpha =>
        rw [parse_rgb_none6 utail ⟨c, by simp, hnone⟩]
        rfl
  · cases h12 : parse_color [c1, c2] with
    | none => rfl
    | some alpha =>
        rw [parse_rgb_none6 utail ⟨c, by simp, hnone⟩]
        rfl
  · cases h12 : parse_color [c1, c2] with
    | none => rfl
    | some alpha =>
        rw [parse_rgb_none6 utail ⟨c, by simp, hnone⟩]
        rfl
  · cases h12 : parse_color [c1, c2] with
    | none => rfl
    | some alpha =>
        rw [parse_rgb_none6 utail ⟨c, by simp, hnone⟩]
        rfl

/-- Every valid hex body (6 or 8 hex digits) parses to some color. -/
theorem parse_hexBody_some {x : List Char} (hx : isHexBody x) :
    ∃ c : Color, parse x = RResult.ok (some c) := by
  obtain ⟨hlen, hhex⟩ := hx
  rcases hlen with h6 | h8
  · obtain ⟨c1, c2, c3, c4, c5, c6, rfl⟩ := exists_six h6
    obtain ⟨d1, hd1⟩ := Option.isSome_iff_exists.mp (hhex c1 (by simp))
    obtain ⟨d2, hd2⟩ := Option.isSome_iff_exists.mp (hhex c2 (by simp))
    obtain ⟨d3, hd3⟩ := Option.isSome_iff_exists.mp (hhex c3 (by simp))
    obtain ⟨d4, hd4⟩ := Option.isSome_iff_exists.mp (hhex c4 (by simp))
    obtain ⟨d5, hd5⟩ := Option.isSome_iff_exists.mp (hhex c5 (by simp))
    obtain ⟨d6, hd6⟩ := Option.isSome_iff_exists.mp (hhex c6 (by simp))
    exact ⟨_, parse_hex6 hd1 hd2 hd3 hd4 hd5 hd6⟩
  · obtain ⟨c1, c2, c3, c4, c5, c6, c7, c8, rfl⟩ := exists_eight h8
    obtain ⟨d1, hd1⟩ := Option.isSome_iff_exists.mp (hhex c1 (by simp))
    obtain ⟨d2, hd2⟩ := Option.isSome_iff_exists.mp (hhex c2 (by simp))
    obtain ⟨d3, hd3⟩ := Option.isSome_iff_exists.mp (hhex c3 (by simp))
    obtain ⟨d4, hd4⟩ := Option.isSome_iff_exists.mp (hhex c4 (by simp))
    obtain ⟨d5, hd5⟩ := Option.isSome_iff_exists.mp (hhex c5 (by simp))
    obtain ⟨d6, hd6⟩ := Option.isSome_iff_exists.mp (hhex c6 (by simp))
    obtain ⟨d7, hd7⟩ := Option.isSome_iff_exists.mp (hhex c7 (by simp))
    obtain ⟨d8, hd8⟩ := Option.isSome_iff_exists.mp (hhex c8 (by simp))
    exact ⟨_, parse_hex8 hd1 hd2 hd3 hd4 hd5 hd6 hd7 hd8⟩

/-! ### Bit arithmetic for the `u32` conversion -/

theorem and_mask_shiftRight (v k m : Nat) :
    (v &&& ((2 ^ m - 1) <<< k)) >>> k = (v >>> k) &&& (2 ^ m - 1) := by
  apply Nat.eq_of_testBit_eq
  intro i
  simp only [Nat.testBit_shiftRight, Nat.testBit_and, Nat.testBit_shiftLeft,
    Nat.testBit_two_pow_sub_one]
  congr 1
  rw [Nat.add_sub_cancel_left]
  rw [decide_eq_true (show k + i ≥ k from Nat.le_add_right k i), Bool.true_and]

theorem mask16 (v : Nat) : (v &&& 0xff0000) >>> 16 = (v >>> 16) &&& 0xff := by
  have h := and_mask_shiftRight v 16 8
  have e1 : ((2 : Nat) ^ 8 - 1) <<< 16 = 0xff0000 := by decide
  have e2 : ((2 : Nat) ^ 8 - 1) = 0xff := by decide
  rw [e1, e2] at h
  exact h

theorem mask8 (v : Nat) : (v &&& 0x00ff00) >>> 8 = (v >>> 8) &&& 0xff := by
  have h := and_mask_shiftRight v 8 8
  have e1 : ((2 : Nat) ^ 8 - 1) <<< 8 = 0x00ff00 := by decide
  have e2 : ((2 : Nat) ^ 8 - 1) = 0xff := by decide
  rw [e1, e2] at h
  exact h

theorem and_ff_lt (x : Nat) : x &&& 0xff < 256 :=
  lt_of_le_of_lt Nat.and_le_right (by norm_num)

/-! ### The claims -/

/-- Claim C1: for every four byte values r, g, b, a, `values (rgba r g b a)`
is the tuple `(b, g, r, a)`: red and blue are swapped at construction, green
and alpha pass through, and the accessor returns the stored channels
untransformed. -/
theorem claim1_values_rgba (r g b a : Nat) : values (rgba r g b a) = (b, g, r, a) :=
  rfl

/-- Claim C2: for every string of exactly six hex digits `RRGGBB`, `parse`
succeeds and the stored channels are red = parsed BB, green = parsed GG,
blue = parsed RR, alpha = 255. -/
theorem claim2_parse_rgb6 (c1 c2 c3 c4 c5 c6 : Char) (d1 d2 d3 d4 d5 d6 : Nat)
    (h1 : hex_to_u8 c1 = some d1) (h2 : hex_to_u8 c2 = some d2)
    (h3 : hex_to_u8 c3 = some d3) (h4 : hex_to_u8 c4 = some d4)
    (h5 : hex_to_u8 c5 = some d5) (h6 : hex_to_u8 c6 = some d6) :
    parse_color [c1, c2] = some ((d1 <<< 4) ||| d2) ∧
    parse_color [c3, c4] = some ((d3 <<< 4) ||| d4) ∧
    parse_color [c5, c6] = some ((d5 <<< 4) ||| d6) ∧
    parse [c1, c2, c3, c4, c5, c6] =
      RResult.ok (some { red := (d5 <<< 4) ||| d6, green := (d3 <<< 4) ||| d4,
                         blue := (d1 <<< 4) ||| d2, alpha := 255 }) :=
  ⟨parse_color_cons_cons h1 h2, parse_color_cons_cons h3 h4,
   parse_color_cons_cons h5 h6, parse_hex6 h1 h2 h3 h4 h5 h6⟩

theorem claim2_witness :
    parse_color ['f', 'f'] = some ((15 <<< 4) ||| 15) ∧
    parse_color ['0', '0'] = some ((0 <<< 4) ||| 0) ∧
    parse_color ['0', '0'] = some ((0 <<< 4) ||| 0) ∧
    parse ['f', 'f', '0', '0', '0', '0'] =
      RResult.ok (some { red := (0 <<< 4) ||| 0, green := (0 <<< 4) ||| 0,
                         blue := (15 <<< 4) ||| 15, alpha := 255 }) :=
  claim2_parse_rgb6 'f' 'f' '0' '0' '0' '0' 15 15 0 0 0 0 (by decide) (by decide)
    (by decide) (by decide) (by decide) (by decide)

/-- Claim C3: for every string of exactly eight hex digits `AARRGGBB`, `parse`
succeeds and the stored channels are red = parsed BB, green = parsed GG,
blue = parsed RR, alpha = parsed AA: the double swap in the ARGB path composes
with the constructor swap to one net inversion, matching the RGB path. -/
theorem claim3_parse_argb8 (c1 c2 c3 c4 c5 c6 c7 c8 : Char)
    (d1 d2 d3 d4 d5 d6 d7 d8 : Nat)
    (h1 : hex_to_u8 c1 = some d1) (h2 : hex_to_u8 c2 = some d2)
    (h3 : hex_to_u8 c3 = some d3) (h4 : hex_to_u8 c4 = some d4)
    (h5 : hex_to_u8 c5 = some d5) (h6 : hex_to_u8 c6 = some d6)
    (h7 : hex_to_u8 c7 = some d7) (h8 : hex_to_u8 c8 = some d8) :
    parse_color [c1, c2] = some ((d1 <<< 4) ||| d2) ∧
    parse_color [c3, c4] = some ((d3 <<< 4) ||| d4) ∧
    parse_color [c5, c6] = some ((d5 <<< 4) ||| d6) ∧
    parse_color [c7, c8] = some ((d7 <<< 4) ||| d8) ∧
    parse [c1, c2, c3, c4, c5, c6, c7, c8] =
      RResult.ok (some { red := (d7 <<< 4) ||| d8, green := (d5 <<< 4) ||| d6,
                         blue := (d3 <<< 4) ||| d4, alpha := (d1 <<< 4) ||| d2 }) :=
  ⟨parse_color_cons_cons h1 h2, parse_color_cons_cons h3 h4,
   parse_color_cons_cons h5 h6, parse_color_cons_cons h7 h8,
   parse_hex8 h1 h2 h3 h4 h5 h6 h7 h8⟩

theorem claim3_witness :
    parse_color ['c', '0'] = some ((12 <<< 4) ||| 0) ∧
    parse_color ['0', '0'] = some ((0 <<< 4) ||| 0) ∧
    parse_color ['0', '0'] = some ((0 <<< 4) ||| 0) ∧
    parse_color ['f', 'f'] = some ((15 <<< 4) ||| 15) ∧
    parse ['c', '0', '0', '0', '0', '0', 'f', 'f'] =
      RResult.ok (some { red := (15 <<< 4) ||| 15, green := (0 <<< 4) ||| 0,
                         blue := (0 <<< 4) ||| 0, alpha := (12 <<< 4) ||| 0 }) :=
  claim3_parse_argb8 'c' '0' '0' '0' '0' '0' 'f' 'f' 12 0 0 0 0 0 15 15
    (by decide) (by decide) (by decide) (by decide) (by decide) (by decide)
    (by decide) (by decide)

/-- Claim C4: for every 32-bit value v, the `u32` conversion always succeeds,
equals `rgba ((v >>> 16) &&& 0xFF) ((v >>> 8) &&& 0xFF) (v &&& 0xFF) 255`,
stores red = v &&& 0xFF, green = (v >>> 8) &&& 0xFF, blue = (v >>> 16) &&& 0xFF,
alpha = 255, and ignores bits above position 23. -/
theorem claim4_fromU32 (v : Nat) (hv : v < 2 ^ 32) :
    fromU32 v = rgba ((v >>> 16) &&& 0xFF) ((v >>> 8) &&& 0xFF) (v &&& 0xFF) 255 ∧
    (fromU32 v).red = v &&& 0xFF ∧
    (fromU32 v).green = (v >>> 8) &&& 0xFF ∧
    (fromU32 v).blue = (v >>> 16) &&& 0xFF ∧
    (fromU32 v).alpha = 255 ∧
    fromU32 v = fromU32 (v &&& 0xFFFFFF) := by
  have hmain : fromU32 v =
      rgba ((v >>> 16) &&& 0xFF) ((v >>> 8) &&& 0xFF) (v &&& 0xFF) 255 := by
    unfold fromU32
    rw [mask16, mask8, Nat.mod_eq_of_lt (and_ff_lt _), Nat.mod_eq_of_lt (and_ff_lt _),
      Nat.mod_eq_of_lt (and_ff_lt _)]
  refine ⟨hmain, ?_, ?_, ?_, ?_, ?_⟩
  · rw [hmain]; rfl
  · rw [hmain]; rfl
  · rw [hmain]; rfl
  · rw [hmain]; rfl
  · have a1 : (v &&& 0xFFFFFF) &&& 0xff0000 = v &&& 0xff0000 := by
      rw [Nat.and_assoc, show ((0xFFFFFF : Nat) &&& 0xff0000) = 0xff0000 from by decide]
    have a2 : (v &&& 0xFFFFFF) &&& 0x00ff00 = v &&& 0x00ff00 := by
      rw [Nat.and_assoc, show ((0xFFFFFF : Nat) &&& 0x00ff00) = 0x00ff00 from by decide]
    have a3 : (v &&& 0xFFFFFF) &&& 0x0000ff = v &&& 0x0000ff := by
      rw [Nat.and_assoc, show ((0xFFFFFF : Nat) &&& 0x0000ff) = 0x0000ff from by decide]
    unfold fromU32
    rw [a1, a2, a3]

theorem claim4_witness :
    fromU32 0xFF0000 =
      rgba ((0xFF0000 >>> 16) &&& 0xFF) ((0xFF0000 >>> 8) &&& 0xFF)
        (0xFF0000 &&& 0xFF) 255 ∧
    fromU32 0xFF0000 = fromU32 (0xFF0000 &&& 0xFFFFFF) :=
  ⟨(claim4_fromU32 0xFF0000 (by norm_num)).1,
   (claim4_fromU32 0xFF0000 (by norm_num)).2.2.2.2.2⟩

/-- Claim C5: for every valid 6- or 8-digit hex body x, prepending a single
`#` or `0x` does not change the parse result. -/
theorem claim5_parse_prefixes (x : List Char) (hx : isHexBody x) :
    parse ('#' :: x) = parse x ∧ parse ('0' :: 'x' :: x) = parse x :=
  ⟨parse_hash x, parse_0x_strip x⟩

theorem claim5_witness :
    parse ('#' :: ['0', '0', '0', '0', '0', '0']) = parse ['0', '0', '0', '0', '0', '0'] ∧
    parse ('0' :: 'x' :: ['0', '0', '0', '0', '0', '0']) =
      parse ['0', '0', '0', '0', '0', '0'] :=
  claim5_parse_prefixes ['0', '0', '0', '0', '0', '0'] (by decide)

/-- Claim C6, counterexample: the string `"#000000"` has length 7 and yet
parses successfully, so `parse` does not return `none` on every string of
length 7. -/
theorem claim6_counterexample :
    List.length ['#', '0', '0', '0', '0', '0', '0'] = 7 ∧
    parse ['#', '0', '0', '0', '0', '0', '0'] = RResult.ok (some (rgba 0 0 0 255)) := by
  decide

/-- Claim C6, amended: for strings that carry no `#` or `0x` prefix, `parse`
returns `none` whenever the byte length is not 6 or 8 (empty string, lengths
1–5, 7, 9 and beyond), and returns `none` on every one-byte-per-character
(ASCII) string containing a non-hex character. -/
theorem claim6_amended :
    (∀ s : List Char, startsWith ['#'] s = false → startsWith ['0', 'x'] s = false →
        byteLen s ≠ 6 → byteLen s ≠ 8 → parse s = RResult.ok none) ∧
    (∀ s : List Char, startsWith ['#'] s = false → startsWith ['0', 'x'] s = false →
        (∀ c ∈ s, utf8Size c = 1) → (∃ c ∈ s, hex_to_u8 c = none) →
        parse s = RResult.ok none) := by
  constructor
  · intro s hp1 hp2 h6 h8
    exact parse_badLen hp1 hp2 h6 h8
  · intro s hp1 hp2 hascii hbad
    by_cases hb6 : byteLen s = 6
    · have hlen : s.length = 6 := by rw [← byteLen_eq_length hascii]; exact hb6
      obtain ⟨c1, c2, c3, c4, c5, c6, rfl⟩ := exists_six hlen
      rw [parse_no_strip (startsWith_hash_false hp1) (startsWith_0x_false hp2),
        parseBody_six hb6]
      exact parse_rgb_none6 hascii hbad
    · by_cases hb8 : byteLen s = 8
      · have hlen : s.length = 8 := by rw [← byteLen_eq_length hascii]; exact hb8
        obtain ⟨c1, c2, c3, c4, c5, c6, c7, c8, rfl⟩ := exists_eight hlen
        rw [parse_no_strip (startsWith_hash_false hp1) (startsWith_0x_false hp2),
          parseBody_eight hb8]
        exact parse_argb_none8 hascii hbad
      · exact parse_badLen hp1 hp2 hb6 hb8

theorem claim6_witness :
    parse ['0'] = RResult.ok none ∧ parse ['z', 'z', 'z', 'z', 'z', 'z'] = RResult.ok none :=
  ⟨claim6_amended.1 ['0'] (by decide) (by decide) (by decide) (by decide),
   claim6_amended.2 ['z', 'z', 'z', 'z', 'z', 'z'] (by decide) (by decide)
     (by decide) (by decide)⟩

/-- Claim C7: the claim says `parse` never raises an error signal on any
input, including non-ASCII input; in fact on the two-character string `"€€"`
(byte length 6, not a character boundary at byte 2) the `split_at` call in
the RGB decoder panics. -/
theorem claim7_panic_on_nonascii : parse ['€', '€'] = RResult.panic := by
  decide

/-- Claim C8: single-channel hex decoding takes at most the first two
characters, returns `(first <<< 4) ||| second` when both are hex digits
(case-insensitive, with the letter ranges valued 10–15), and returns `none`
on empty input, one-character input, or a non-hex character among the first
two. -/
theorem claim8_parse_color :
    parse_color ([] : List Char) = none ∧
    (∀ c : Char, parse_color [c] = none) ∧
    (∀ (c1 c2 : Char) (rest : List Char) (d1 d2 : Nat),
        hex_to_u8 c1 = some d1 → hex_to_u8 c2 = some d2 →
        parse_color (c1 :: c2 :: rest) = some ((d1 <<< 4) ||| d2)) ∧
    (∀ (c1 c2 : Char) (rest : List Char),
        hex_to_u8 c1 = none ∨ hex_to_u8 c2 = none →
        parse_color (c1 :: c2 :: rest) = none) ∧
    (∀ c : Char, 48 ≤ c.toNat → c.toNat ≤ 57 → hex_to_u8 c = some (c.toNat - 48)) ∧
    (∀ c : Char, 97 ≤ c.toNat → c.toNat ≤ 102 → hex_to_u8 c = some (c.toNat - 87)) ∧
    (∀ c : Char, 65 ≤ c.toNat → c.toNat ≤ 70 → hex_to_u8 c = some (c.toNat - 55)) ∧
    (∀ c : Char, ¬(48 ≤ c.toNat ∧ c.toNat ≤ 57) → ¬(97 ≤ c.toNat ∧ c.toNat ≤ 102) →
        ¬(65 ≤ c.toNat ∧ c.toNat ≤ 70) → hex_to_u8 c = none) := by
  refine ⟨parse_color_nil, parse_color_single, ?_, ?_, ?_, ?_, ?_, ?_⟩
  · intro c1 c2 rest d1 d2 h1 h2
    exact parse_color_cons_cons h1 h2
  · intro c1 c2 rest h
    rcases h with h | h
    · exact parse_color_fst_none h
    · exact parse_color_snd_none h
  · intro c h1 h2
    unfold hex_to_u8 char_to_digit16
    rw [if_pos ⟨h1, h2⟩]
    simp only [Option.map_some']
    rw [Nat.mod_eq_of_lt (by omega)]
  · intro c h1 h2
    unfold hex_to_u8 char_to_digit16
    rw [if_neg (by omega), if_pos ⟨h1, h2⟩]
    simp only [Option.map_some']
    rw [Nat.mod_eq_of_lt (by omega)]
  · intro c h1 h2
    unfold hex_to_u8 char_to_digit16
    rw [if_neg (by omega), if_neg (by omega), if_pos ⟨h1, h2⟩]
    simp only [Option.map_some']
    rw [Nat.mod_eq_of_lt (by omega)]
  · intro c h1 h2 h3
    unfold hex_to_u8 char_to_digit16
    rw [if_neg h1, if_neg h2, if_neg h3]
    rfl

theorem claim8_witness : parse_color ['c', '8', 'z'] = some ((12 <<< 4) ||| 8) :=
  claim8_parse_color.2.2.1 'c' '8' ['z'] 12 8 (by decide) (by decide)

/-- Claim C9: a string carrying both prefixes in sequence is accepted: for
every valid hex body x, `parse ("#0x" ++ x)` succeeds and agrees with
`parse x`, because after stripping `#` the recursion strips `0x` as well. -/
theorem claim9_double_prefix (x : List Char) (hx : isHexBody x) :
    ∃ c : Color, parse ('#' :: '0' :: 'x' :: x) = RResult.ok (some c) ∧
      parse x = RResult.ok (some c) := by
  obtain ⟨c, hc⟩ := parse_hexBody_some hx
  refine ⟨c, ?_, hc⟩
  rw [parse_hash, parse_0x_strip, hc]

theorem claim9_witness :
    parse ['#', '0', 'x', '0', '0', '0', '0', '0', '0'] =
      RResult.ok (some (rgba 0 0 0 255)) := by
  obtain ⟨c, h1, h2⟩ := claim9_double_prefix ['0', '0', '0', '0', '0', '0'] (by decide)
  have he : parse ['0', '0', '0', '0', '0', '0'] = RResult.ok (some (rgba 0 0 0 255)) := by
    decide
  rw [he] at h2
  rw [h1]
  exact h2.symm

/-- Claim C10: prefix recognition is case-sensitive even though hex digits are
not: an uppercase `0X` prefix is not stripped, so `parse ("0X" ++ x)` for a
valid 6-digit hex body x is treated as an 8-character ARGB string whose alpha
field `0X` fails to decode, and `parse` returns `none`, while
`parse ("0x" ++ x)` succeeds. -/
theorem claim10_upper_0X (c1 c2 c3 c4 c5 c6 : Char) (d1 d2 d3 d4 d5 d6 : Nat)
    (h1 : hex_to_u8 c1 = some d1) (h2 : hex_to_u8 c2 = some d2)
    (h3 : hex_to_u8 c3 = some d3) (h4 : hex_to_u8 c4 = some d4)
    (h5 : hex_to_u8 c5 = some d5) (h6 : hex_to_u8 c6 = some d6) :
    parse ('0' :: 'X' :: [c1, c2, c3, c4, c5, c6]) = RResult.ok none ∧
    parse ('0' :: 'x' :: [c1, c2, c3, c4, c5, c6]) =
      RResult.ok (some (rgba ((d1 <<< 4) ||| d2) ((d3 <<< 4) ||| d4)
        ((d5 <<< 4) ||| d6) 255)) := by
  constructor
  · have hb : byteLen ('0' :: 'X' :: [c1, c2, c3, c4, c5, c6]) = 8 := by
      simp [byteLen, hex_utf8Size h1, hex_utf8Size h2, hex_utf8Size h3,
        hex_utf8Size h4, hex_utf8Size h5, hex_utf8Size h6,
        show utf8Size '0' = 1 from by decide, show utf8Size 'X' = 1 from by decide]
    rw [parse_no_strip (by decide) (by decide), parseBody_eight hb,
      parse_argb_eval (by decide) (by decide) (hex_utf8Size h1) (hex_utf8Size h2)
        (hex_utf8Size h3) (hex_utf8Size h4) (hex_utf8Size h5) (hex_utf8Size h6),
      parse_color_snd_none (show hex_to_u8 'X' = none from by decide)]
  · rw [parse_0x_strip]
    exact parse_hex6 h1 h2 h3 h4 h5 h6

theorem claim10_witness :
    parse ('0' :: 'X' :: ['0', '0', '0', '0', '0', '0']) = RResult.ok none ∧
    parse ('0' :: 'x' :: ['0', '0', '0', '0', '0', '0']) =
      RResult.ok (some (rgba ((0 <<< 4) ||| 0) ((0 <<< 4) ||| 0) ((0 <<< 4) ||| 0) 255)) :=
  claim10_upper_0X '0' '0' '0' '0' '0' '0' 0 0 0 0 0 0 (by decide) (by decide)
    (by decide) (by decide) (by decide) (by decide)

end WayCooler
